import Mathlib

/-!
Shallow embedding of the `Debugger` session orchestrator
(`src/pkg/commons-node/ScribeProcess.js`, class `Debugger`, lines 370-626).

The JavaScript class owns a `VsDebugSession` handle (`_debugSession`), a
thread directory (`_threads : Map<number, string>`), an active-thread
pointer (`_activeThread : ?number`) and a `SourceFileCache`.  We embed the
mutable instance state as an explicit `DebuggerState` record, every
protocol request and console call as an `Effect` value appended to a trace,
and every `throw new Error(msg)` as `Except.error msg`.  Protocol
responses (which the JavaScript code `await`s) are passed in as explicit
arguments, and the source cache is abstracted as a total environment
`SourceEnv` giving the line sequence each cache key resolves to.

Session identity: each `new VsDebugSession(...)` allocation is given a
fresh numeric id drawn from `nextSessionId`; `aliveSessions` records the
sessions that were constructed and never sent `disconnect`, and
`subscriptions` records the sessions whose five event streams this
debugger subscribed to (the code never unsubscribes anywhere).
-/

/-- DAP `Thread`: `{id: number, name: string}`. -/
structure Thread where
  id : Nat
  name : String
  deriving DecidableEq, Repr

/-- DAP `Source`: `{path?: string, sourceReference?: number, name?: string}`. -/
structure Source where
  path : Option String
  sourceReference : Option Nat
  name : Option String
  deriving DecidableEq, Repr

/-- DAP `StackFrame`, restricted to the fields the orchestrator reads. -/
structure StackFrame where
  line : Nat
  column : Nat
  name : String
  source : Option Source
  deriving DecidableEq, Repr

/-- One observable action of the orchestrator: a console call
(`ConsoleIO.output/outputLine/startInput/stopInput`), a protocol request
issued on a session, a session allocation, the event-stream subscription
block of `openSession`, or the `SourceFileCache.flush()` call. -/
inductive Effect where
  | output (text : String)
  | outputLine (text : String)
  | startInput
  | stopInput
  | newSession (sid : Nat)
  | reqInitialize (sid : Nat)
  | subscribeEvents (sid : Nat)
  | reqLaunch (sid : Nat)
  | reqThreads (sid : Nat)
  | reqStackTrace (sid : Nat) (threadId : Nat) (totalFrames : Nat)
  | reqStepIn (sid : Nat) (threadId : Nat)
  | reqNext (sid : Nat) (threadId : Nat)
  | reqSource (sid : Nat) (sourceReference : Nat)
  | reqDisconnect (sid : Nat)
  | flushCache
  deriving DecidableEq, Repr

/-- The mutable instance state of the `Debugger` class, plus session-identity
bookkeeping (`nextSessionId`, `aliveSessions`, `subscriptions`) that makes
object lifetime observable in the embedding. -/
structure DebuggerState where
  debugSession : Option Nat
  threads : List (Nat × String)
  activeThread : Option Nat
  nextSessionId : Nat
  aliveSessions : List Nat
  subscriptions : List Nat
  deriving DecidableEq, Repr

/-- The state of a freshly constructed `Debugger`. -/
def initialState : DebuggerState :=
  { debugSession := none
    threads := []
    activeThread := none
    nextSessionId := 0
    aliveSessions := []
    subscriptions := [] }

/-- Lookup in a JavaScript `Map` materialised as its insertion sequence:
a later insertion of the same key overwrites an earlier one. -/
def jsMapGet (m : List (Nat × String)) (k : Nat) : Option String :=
  match m with
  | [] => none
  | e :: rest =>
      match jsMapGet rest k with
      | some v => some v
      | none => if e.1 = k then some e.2 else none

/-- The source cache abstracted as an environment: the line sequences that
`SourceFileCache.getFileDataBySourceReference` and `getFileDataByPath`
resolve each key to. -/
structure SourceEnv where
  byRef : Nat → List String
  byPath : String → List String

/-- The `let lines` resolution step of `Debugger.getSourceLines`: a non-null,
non-zero `sourceReference` selects the reference-keyed cache; otherwise a
non-null `path` selects the path-keyed cache; otherwise the empty sequence. -/
def resolvedLines (env : SourceEnv) (source : Source) : List String :=
  match source.sourceReference with
  | some sourceReference =>
      if sourceReference ≠ 0 then env.byRef sourceReference
      else
        match source.path with
        | some p => env.byPath p
        | none => []
  | none =>
      match source.path with
      | some p => env.byPath p
      | none => []

/-- `Debugger.getSourceLines(source, start, length)`: resolve the line
sequence, return `[]` when `start >= lines.length`, otherwise
`lines.slice(start, Math.min(start + length, lines.length))`. -/
def getSourceLines (env : SourceEnv) (source : Source) (start length : Nat) :
    List String :=
  let lines := resolvedLines env source
  if start ≥ lines.length then []
  else (lines.take (min (start + length) lines.length)).drop start

/-- `Debugger._ensureDebugSession` / `Debugger.getThreads`: requires an open
session, then returns the current thread directory. -/
def getThreads (s : DebuggerState) : Except String (List (Nat × String)) :=
  match s.debugSession with
  | none => .error "There is no active debugging session."
  | some _ => .ok s.threads

/-- `Debugger.getActiveThread`: requires an open session, then returns the
active-thread pointer. -/
def getActiveThread (s : DebuggerState) : Except String (Option Nat) :=
  match s.debugSession with
  | none => .error "There is no active debugging session."
  | some _ => .ok s.activeThread

/-- `Debugger.getStackTrace(thread, frameCount = 0)`: issues a `stackTrace`
request on the current session; the adapter's response frames are passed in
as `frames`. -/
def getStackTrace (frames : List StackFrame) (thread : Nat) (frameCount : Nat)
    (s : DebuggerState) : Except String (List StackFrame × List Effect) :=
  match s.debugSession with
  | none => .error "There is no active debugging session."
  | some sid => .ok (frames, [Effect.reqStackTrace sid thread frameCount])

/-- `Debugger.stepIn`: the active-thread check precedes the session check,
exactly as in the source. -/
def stepIn (s : DebuggerState) : Except String (DebuggerState × List Effect) :=
  match s.activeThread with
  | none => .error "There is no active thread to step into."
  | some activeThread =>
      match s.debugSession with
      | none => .error "There is no active debugging session."
      | some sid => .ok (s, [Effect.reqStepIn sid activeThread])

/-- `Debugger.stepOver`: like `stepIn` but issues `next`. -/
def stepOver (s : DebuggerState) : Except String (DebuggerState × List Effect) :=
  match s.activeThread with
  | none => .error "There is no active thread to step through."
  | some activeThread =>
      match s.debugSession with
      | none => .error "There is no active debugging session."
      | some sid => .ok (s, [Effect.reqNext sid activeThread])

/-- `Debugger.closeSession`: a no-op when no session is open; otherwise sends
`disconnect`, resets the thread directory and active thread, discards the
handle and flushes the source cache.  The function is total: the close path
never throws. -/
def closeSession (s : DebuggerState) : DebuggerState × List Effect :=
  match s.debugSession with
  | none => (s, [])
  | some sid =>
      ({ s with
          threads := []
          debugSession := none
          activeThread := none
          aliveSessions := s.aliveSessions.erase sid },
        [Effect.reqDisconnect sid, Effect.flushCache])

/-- `Debugger._cacheThreads`: asserts an open session (`invariant(...)`),
requests the full thread list, replaces the thread directory wholesale with
`new Map(threads.map(thd => [thd.id, thd.name]))`, and sets the active
thread to the first reported thread's id, or `null` for an empty list. -/
def cacheThreads (resp : List Thread) (s : DebuggerState) :
    Except String (DebuggerState × List Effect) :=
  match s.debugSession with
  | none => .error "_cacheThreads called without session"
  | some sid =>
      let newThreads := resp.map fun thd => (thd.id, thd.name)
      let active : Option Nat :=
        match resp with
        | [] => none
        | thd :: _ => some thd.id
      .ok ({ s with threads := newThreads, activeThread := active },
        [Effect.reqThreads sid])

/-- `Debugger.openSession`: constructs a fresh `VsDebugSession` (overwriting
any existing handle without disconnecting it), performs `initialize`,
subscribes the five event streams, issues `launch`, then refreshes the
thread directory.  `threadsResp` is the adapter's response to the
`threads()` request issued by `_cacheThreads`. -/
def openSession (threadsResp : List Thread) (s : DebuggerState) :
    Except String (DebuggerState × List Effect) :=
  let sid := s.nextSessionId
  let s1 : DebuggerState :=
    { s with
        debugSession := some sid
        nextSessionId := sid + 1
        aliveSessions := sid :: s.aliveSessions
        subscriptions := sid :: s.subscriptions }
  let effs := [Effect.newSession sid, Effect.reqInitialize sid,
    Effect.subscribeEvents sid, Effect.reqLaunch sid]
  match cacheThreads threadsResp s1 with
  | .error e => .error e
  | .ok (s2, effs2) => .ok (s2, effs ++ effs2)

/-- `Debugger._onContinued`: stop console input when the running thread is the
active one. -/
def onContinued (threadId : Nat) (s : DebuggerState) :
    DebuggerState × List Effect :=
  if s.activeThread = some threadId then (s, [Effect.stopInput]) else (s, [])

/-- Modelled from the spec: `nuclideUri.resolve`/`nuclideUri.split(...).pop()`
come from `nuclide-commons`, which is outside this repository.  Per the spec
the resolved display name is the last segment of the path, i.e. everything
after the final separator. -/
def lastPathSegment (p : String) : String :=
  String.mk ((p.data.reverse.takeWhile (fun c => c ≠ '/')).reverse)

/-- `Debugger._sourceFromTopFrame`: `idx(frames, _ => _[0].source) || null`. -/
def sourceFromTopFrame (frames : List StackFrame) : Option Source :=
  match frames with
  | [] => none
  | f :: _ => f.source

/-- The record `_getTopOfStackSourceInfo` resolves for display. -/
structure TopOfStackInfo where
  line : String
  name : String
  frame : StackFrame
  deriving DecidableEq, Repr

/-- `Debugger._getTopOfStackSourceInfo`, after the `stackTrace` round-trip:
`frames` is the adapter's response.  Extracts the top frame's source, fetches
the single line at the frame's line, and resolves the display name (last path
segment, else `source.name`, else abandon). -/
def getTopOfStackSourceInfo (env : SourceEnv) (frames : List StackFrame) :
    Option TopOfStackInfo :=
  match sourceFromTopFrame frames with
  | none => none
  | some source =>
      match frames with
      | [] => none
      | frame :: _ =>
          let lines := getSourceLines env source frame.line 1
          let resolvedName : Option String :=
            match source.path with
            | some p => some (lastPathSegment p)
            | none => source.name
          match resolvedName with
          | none => none
          | some name =>
              some { line := lines.headD "", name := name, frame := frame }

/-- `Debugger._onStopped`: when the stopped thread is non-null and equals the
active thread, fetch the top stack frame (issuing `stackTrace` with
`totalFrames = 1` through `getStackTrace`, whose `_ensureDebugSession` throws
when the session is closed), print `"<name>:<line+1> <line-text>"` when the
source info resolves, then resume console input. -/
def onStopped (env : SourceEnv) (frames : List StackFrame)
    (threadId : Option Nat) (s : DebuggerState) :
    Except String (DebuggerState × List Effect) :=
  match threadId with
  | none => .ok (s, [])
  | some stopThread =>
      if s.activeThread = some stopThread then
        match s.debugSession with
        | none => .error "There is no active debugging session."
        | some sid =>
            let reqs := [Effect.reqStackTrace sid stopThread 1]
            match getTopOfStackSourceInfo env frames with
            | some info =>
                .ok (s, reqs ++
                  [Effect.outputLine
                    (info.name ++ ":" ++ toString (info.frame.line + 1) ++ " "
                      ++ info.line),
                    Effect.startInput])
            | none => .ok (s, reqs ++ [Effect.startInput])
      else .ok (s, [])

/-- `Debugger._onExitedDebugee`: print the exit status, then close the
session.  There is no closed-session guard. -/
def onExitedDebugee (exitCode : Int) (s : DebuggerState) :
    DebuggerState × List Effect :=
  let msg := "Target exited with status " ++ toString exitCode
  let closed := closeSession s
  (closed.1, Effect.outputLine msg :: closed.2)

/-- `Debugger._onTerminatedDebugee`: guarded against duplicate events by the
session-handle null check; otherwise print, close, and resume input. -/
def onTerminatedDebugee (s : DebuggerState) : DebuggerState × List Effect :=
  match s.debugSession with
  | none => (s, [])
  | some _ =>
      let closed := closeSession s
      (closed.1,
        Effect.outputLine "The target has exited." :: closed.2
          ++ [Effect.startInput])

/-! ## Helper lemmas -/

theorem jsMapGet_isSome_iff (m : List (Nat × String)) (k : Nat) :
    (jsMapGet m k).isSome = true ↔ k ∈ m.map Prod.fst := by
  induction m with
  | nil => simp [jsMapGet]
  | cons e rest ih =>
      by_cases hm : k ∈ rest.map Prod.fst
      · have hsome : (jsMapGet rest k).isSome = true := ih.mpr hm
        rcases Option.isSome_iff_exists.mp hsome with ⟨v, hv⟩
        simp [jsMapGet, hv, hm]
      · have hnone : jsMapGet rest k = none := by
          cases h : jsMapGet rest k with
          | none => rfl
          | some v => exact absurd (ih.mp (by simp [h])) hm
        by_cases he : e.1 = k
        · subst he; simp [jsMapGet, hnone, hm]
        · simp [jsMapGet, hnone, hm, he]
          exact fun hk => he hk.symm

theorem jsMapGet_map_of_nodup (resp : List Thread)
    (hn : (resp.map Thread.id).Nodup) (thd : Thread) (hm : thd ∈ resp) :
    jsMapGet (resp.map fun t => (t.id, t.name)) thd.id = some thd.name := by
  induction resp with
  | nil => cases hm
  | cons a rest ih =>
      have hn2 : (rest.map Thread.id).Nodup := by
        simp only [List.map_cons, List.nodup_cons] at hn
        exact hn.2
      have hn1 : ∀ x ∈ rest, x.id ≠ a.id := by
        intro x hx hxe
        simp only [List.map_cons, List.nodup_cons] at hn
        exact hn.1 (by simpa [hxe] using List.mem_map_of_mem Thread.id hx)
      rcases List.mem_cons.mp hm with heq | hmem
      · rw [heq]
        have hnone : jsMapGet (rest.map fun t => (t.id, t.name)) a.id = none := by
          cases h : jsMapGet (rest.map fun t => (t.id, t.name)) a.id with
          | none => rfl
          | some v =>
              have hmem2 :=
                (jsMapGet_isSome_iff (rest.map fun t => (t.id, t.name)) a.id).mp
                  (by simp [h])
              rw [List.map_map] at hmem2
              rcases List.mem_map.mp hmem2 with ⟨x, hx, hxe⟩
              exact absurd hxe (hn1 x hx)
        simp [jsMapGet, hnone]
      · simp [jsMapGet, ih hn2 hmem]

/-- `openSession` always succeeds and its resulting state and effect trace
are given explicitly by this equation. -/
theorem openSession_eq (resp : List Thread) (s : DebuggerState) :
    openSession resp s = .ok
      ({ s with
          debugSession := some s.nextSessionId
          nextSessionId := s.nextSessionId + 1
          aliveSessions := s.nextSessionId :: s.aliveSessions
          subscriptions := s.nextSessionId :: s.subscriptions
          threads := resp.map fun thd => (thd.id, thd.name)
          activeThread :=
            match resp with
            | [] => none
            | thd :: _ => some thd.id },
        [Effect.newSession s.nextSessionId, Effect.reqInitialize s.nextSessionId,
          Effect.subscribeEvents s.nextSessionId, Effect.reqLaunch s.nextSessionId,
          Effect.reqThreads s.nextSessionId]) := rfl

/-! ## Claims -/

/-- C1: after `openSession` completes with a `threads()` response `resp`,
`getActiveThread` returns the first reported thread's id (or `none` for an
empty list), and the thread directory is rebuilt wholesale from `resp`: it
equals `resp.map (id, name)` regardless of the previous directory, its keys
are exactly the reported ids, and (for distinct ids) it maps each reported
id to that thread's name. -/
theorem c1_openSession_threads (resp : List Thread) (s s' : DebuggerState)
    (effs : List Effect) (h : openSession resp s = .ok (s', effs)) :
    getActiveThread s' = .ok (resp.head?.map Thread.id)
    ∧ s'.threads = resp.map (fun thd => (thd.id, thd.name))
    ∧ (∀ k : Nat, (jsMapGet s'.threads k).isSome = true ↔ k ∈ resp.map Thread.id)
    ∧ ((resp.map Thread.id).Nodup →
        ∀ thd ∈ resp, jsMapGet s'.threads thd.id = some thd.name) := by
  rw [openSession_eq] at h
  injection h with h1
  have hs' := congrArg Prod.fst h1
  subst hs'
  refine ⟨?_, by simp, ?_, ?_⟩
  · cases resp <;> simp [getActiveThread]
  · intro k
    have := jsMapGet_isSome_iff (resp.map fun t => (t.id, t.name)) k
    rw [List.map_map] at this
    simpa using this
  · intro hn thd hm
    simpa using jsMapGet_map_of_nodup resp hn thd hm

/-- C1 witness: opening from the initial state with a two-thread response. -/
theorem c1_witness :
    getActiveThread
      { debugSession := some 0, threads := [(1, "main"), (2, "worker")],
        activeThread := some 1, nextSessionId := 1, aliveSessions := [0],
        subscriptions := [0] } = .ok (some 1) := by
  have h := c1_openSession_threads [⟨1, "main"⟩, ⟨2, "worker"⟩] initialState
    { debugSession := some 0, threads := [(1, "main"), (2, "worker")],
      activeThread := some 1, nextSessionId := 1, aliveSessions := [0],
      subscriptions := [0] }
    [Effect.newSession 0, Effect.reqInitialize 0, Effect.subscribeEvents 0,
      Effect.reqLaunch 0, Effect.reqThreads 0] rfl
  exact h.1

/-- C2: `getSourceLines` delegates by non-zero `sourceReference`, else by
`path`, else resolves the empty sequence; the returned window is clamped to
the file: empty when `start ≥ totalLines` (for any `length`), and otherwise
exactly the lines `[start, min(start+length, totalLines))` — in particular
`min (start+length) totalLines - start` lines, which is `totalLines - start`
when `start + length` overshoots.  The function is total, so out-of-range
input never fails. -/
theorem c2_getSourceLines_spec (env : SourceEnv) (source : Source)
    (start length : Nat) :
    (∀ r, source.sourceReference = some r → r ≠ 0 →
        resolvedLines env source = env.byRef r)
    ∧ (∀ p, source.path = some p →
        (source.sourceReference = none ∨ source.sourceReference = some 0) →
        resolvedLines env source = env.byPath p)
    ∧ (source.path = none →
        (source.sourceReference = none ∨ source.sourceReference = some 0) →
        resolvedLines env source = [])
    ∧ (start ≥ (resolvedLines env source).length →
        getSourceLines env source start length = [])
    ∧ (start < (resolvedLines env source).length →
        (getSourceLines env source start length).length
          = min (start + length) (resolvedLines env source).length - start
        ∧ ∀ i : Nat, (getSourceLines env source start length)[i]?
            = if start + i < min (start + length) (resolvedLines env source).length
              then (resolvedLines env source)[start + i]? else none) := by
  refine ⟨?_, ?_, ?_, ?_, ?_⟩
  · intro r hr h0
    simp [resolvedLines, hr, h0]
  · intro p hp h0
    rcases h0 with h0 | h0 <;> simp [resolvedLines, hp, h0]
  · intro hp h0
    rcases h0 with h0 | h0 <;> simp [resolvedLines, hp, h0]
  · intro hge
    simp only [getSourceLines]
    rw [if_pos hge]
  · intro hlt
    have hnot : ¬ start ≥ (resolvedLines env source).length := by omega
    have hmin : min (start + length) (resolvedLines env source).length
        ≤ (resolvedLines env source).length := min_le_right _ _
    constructor
    · simp only [getSourceLines]
      rw [if_neg hnot]
      simp [List.length_drop, List.length_take]
    · intro i
      simp only [getSourceLines]
      rw [if_neg hnot]
      rw [List.getElem?_drop, List.getElem?_take]

/-- C2 witness: a reference-keyed source of four lines served through a
concrete environment; the window `[1, 1+5)` clamps to three lines. -/
theorem c2_witness :
    resolvedLines
        ⟨fun r => if r = 7 then ["a", "b", "c", "d"] else [], fun _ => []⟩
        ⟨none, some 7, none⟩ = ["a", "b", "c", "d"]
    ∧ getSourceLines
        ⟨fun r => if r = 7 then ["a", "b", "c", "d"] else [], fun _ => []⟩
        ⟨none, some 7, none⟩ 9 2 = []
    ∧ (getSourceLines
        ⟨fun r => if r = 7 then ["a", "b", "c", "d"] else [], fun _ => []⟩
        ⟨none, some 7, none⟩ 1 5).length = 3 := by
  have h9 := c2_getSourceLines_spec
    ⟨fun r => if r = 7 then ["a", "b", "c", "d"] else [], fun _ => []⟩
    ⟨none, some 7, none⟩ 9 2
  have h1 := c2_getSourceLines_spec
    ⟨fun r => if r = 7 then ["a", "b", "c", "d"] else [], fun _ => []⟩
    ⟨none, some 7, none⟩ 1 5
  refine ⟨h1.1 7 rfl (by decide), h9.2.2.2.1 (by decide), ?_⟩
  have := (h1.2.2.2.2 (by decide)).1
  simpa using this

/-- C3: `closeSession` is idempotent.  When already closed it is a no-op
returning the state unchanged with no effects; when open it sends
`disconnect`, empties the thread directory, nulls the active thread,
discards the handle and flushes the source cache, and a second call is then
a no-op.  `closeSession` is a total function, so neither call throws. -/
theorem c3_closeSession_idempotent (s : DebuggerState) :
    (s.debugSession = none → closeSession s = (s, []))
    ∧ ∀ sid, s.debugSession = some sid →
        (closeSession s).1.threads = []
        ∧ (closeSession s).1.activeThread = none
        ∧ (closeSession s).1.debugSession = none
        ∧ (closeSession s).2 = [Effect.reqDisconnect sid, Effect.flushCache]
        ∧ closeSession (closeSession s).1 = ((closeSession s).1, []) := by
  constructor
  · intro h
    simp [closeSession, h]
  · intro sid h
    simp [closeSession, h]

/-- C3 witness: closing an open session, then closing again. -/
theorem c3_witness :
    closeSession ⟨none, [], none, 0, [], []⟩ = (⟨none, [], none, 0, [], []⟩, [])
    ∧ (closeSession ⟨some 5, [(1, "x")], some 1, 6, [5], [5]⟩).1.debugSession
        = none := by
  exact ⟨(c3_closeSession_idempotent ⟨none, [], none, 0, [], []⟩).1 rfl,
    ((c3_closeSession_idempotent ⟨some 5, [(1, "x")], some 1, 6, [5], [5]⟩).2
      5 rfl).2.2.1⟩

/-- C4: whenever the active thread is null — in particular in every state
where `getActiveThread` would yield `null` — `stepIn` and `stepOver` fail
with distinct human-readable messages ("step into" vs. "step through") and,
failing before any session access, issue no protocol request (the error
carries an empty effect trace). -/
theorem c4_step_no_active_thread (s : DebuggerState)
    (h : s.activeThread = none) :
    stepIn s = .error "There is no active thread to step into."
    ∧ stepOver s = .error "There is no active thread to step through."
    ∧ ("There is no active thread to step into."
        ≠ "There is no active thread to step through.") := by
  refine ⟨?_, ?_, by decide⟩ <;> simp [stepIn, stepOver, h]

/-- C4 witness: an open session with no active thread. -/
theorem c4_witness :
    stepIn ⟨some 0, [], none, 1, [0], [0]⟩
      = .error "There is no active thread to step into." :=
  (c4_step_no_active_thread ⟨some 0, [], none, 1, [0], [0]⟩ rfl).1

/-- C5: with a session open, the first `terminated` event runs the close
logic exactly once — one "The target has exited." line, one `disconnect`,
one resume-input (`startInput`) signal — and leaves the session closed, so
a second (and any later) `terminated` event is a no-op with no output and
no error. -/
theorem c5_terminated_idempotent (s : DebuggerState) (sid : Nat)
    (h : s.debugSession = some sid) :
    (onTerminatedDebugee s).1.debugSession = none
    ∧ onTerminatedDebugee (onTerminatedDebugee s).1
        = ((onTerminatedDebugee s).1, [])
    ∧ (onTerminatedDebugee s).2.count Effect.startInput = 1
    ∧ (onTerminatedDebugee s).2.count
        (Effect.outputLine "The target has exited.") = 1
    ∧ (onTerminatedDebugee s).2.count (Effect.reqDisconnect sid) = 1 := by
  simp [onTerminatedDebugee, closeSession, h, List.count_cons, List.count_nil]

/-- C5 witness: two consecutive `terminated` events from an open session. -/
theorem c5_witness :
    (onTerminatedDebugee ⟨some 0, [(1, "main")], some 1, 1, [0], [0]⟩).2.count
      Effect.startInput = 1 :=
  (c5_terminated_idempotent ⟨some 0, [(1, "main")], some 1, 1, [0], [0]⟩
    0 rfl).2.2.1

/-- C6: an `exited` event with exit code `c` arriving while the session is
open prints "Target exited with status c" exactly once, then closes the
session: the resulting state is closed and `getThreads` on it fails with
the no-active-session error. -/
theorem c6_exited_closes (s : DebuggerState) (sid : Nat) (c : Int)
    (h : s.debugSession = some sid) :
    (onExitedDebugee c s).1.debugSession = none
    ∧ (onExitedDebugee c s).2.count
        (Effect.outputLine ("Target exited with status " ++ toString c)) = 1
    ∧ getThreads (onExitedDebugee c s).1
        = .error "There is no active debugging session." := by
  simp [onExitedDebugee, closeSession, getThreads, h, List.count_cons,
    List.count_nil]

/-- C6 witness: exit code 1 arriving in an open session. -/
theorem c6_witness :
    (onExitedDebugee 1 ⟨some 0, [(1, "main")], some 1, 1, [0], [0]⟩).2.count
      (Effect.outputLine "Target exited with status 1") = 1 := by
  have h := (c6_exited_closes ⟨some 0, [(1, "main")], some 1, 1, [0], [0]⟩
    0 1 rfl).2.1
  simpa using h

/-- A requested window of one line starting at a valid index returns exactly
that line. -/
theorem getSourceLines_single (env : SourceEnv) (src : Source) (n : Nat)
    (lineText : String) (h : (resolvedLines env src)[n]? = some lineText) :
    getSourceLines env src n 1 = [lineText] := by
  have hn : n < (resolvedLines env src).length := by
    by_contra hc
    push_neg at hc
    rw [List.getElem?_eq_none hc] at h
    simp at h
  simp only [getSourceLines]
  rw [if_neg (by omega)]
  have hm : min (n + 1) (resolvedLines env src).length = n + 1 := by omega
  rw [hm]
  apply List.ext_getElem?
  intro i
  rw [List.getElem?_drop, List.getElem?_take]
  cases i with
  | zero => simpa using h
  | succ j =>
      rw [if_neg (by omega)]
      simp

/-- C7: a `stopped` event for the active thread whose resolved top frame
carries a source prints `"<resolved-name>:<line+1> <line-text>"`, where the
resolved name is the last segment of `source.path` when set, else
`source.name`; with neither set the print is abandoned silently (only the
stack-trace request and resume-input remain).  The displayed line number is
the frame's 0-based line plus one, and the line text is the source line at
the frame's line. -/
theorem c7_stopped_prints (env : SourceEnv) (frames : List StackFrame)
    (s : DebuggerState) (sid t : Nat) (frame : StackFrame) (src : Source)
    (lineText : String)
    (hsid : s.debugSession = some sid)
    (hact : s.activeThread = some t)
    (hhead : frames.head? = some frame)
    (hsrc : frame.source = some src)
    (hline : (resolvedLines env src)[frame.line]? = some lineText) :
    (∀ p, src.path = some p →
        onStopped env frames (some t) s = .ok (s,
          [Effect.reqStackTrace sid t 1,
            Effect.outputLine (lastPathSegment p ++ ":"
              ++ toString (frame.line + 1) ++ " " ++ lineText),
            Effect.startInput]))
    ∧ (src.path = none → ∀ nm, src.name = some nm →
        onStopped env frames (some t) s = .ok (s,
          [Effect.reqStackTrace sid t 1,
            Effect.outputLine (nm ++ ":" ++ toString (frame.line + 1) ++ " "
              ++ lineText),
            Effect.startInput]))
    ∧ (src.path = none → src.name = none →
        onStopped env frames (some t) s = .ok (s,
          [Effect.reqStackTrace sid t 1, Effect.startInput])) := by
  cases frames with
  | nil => exact absurd hhead (by simp)
  | cons f rest =>
      have hf : f = frame := by simpa using hhead
      subst hf
      have hlines : getSourceLines env src f.line 1 = [lineText] :=
        getSourceLines_single env src f.line lineText hline
      refine ⟨?_, ?_, ?_⟩
      · intro p hp
        simp [onStopped, hact, hsid, getTopOfStackSourceInfo,
          sourceFromTopFrame, hsrc, hp, hlines]
      · intro hp nm hnm
        simp [onStopped, hact, hsid, getTopOfStackSourceInfo,
          sourceFromTopFrame, hsrc, hp, hnm, hlines]
      · intro hp hnm
        simp [onStopped, hact, hsid, getTopOfStackSourceInfo,
          sourceFromTopFrame, hsrc, hp, hnm, hlines]

/-- Concrete source descriptor for the C7 scenario: `source.path = "/a/b.js"`. -/
def srcW : Source := ⟨some "/a/b.js", none, none⟩

/-- Concrete cache environment for the C7 scenario: `/a/b.js` has line index 4
equal to `"console.log(hi)"`. -/
def envW : SourceEnv :=
  ⟨fun _ => [],
    fun p => if p = "/a/b.js" then ["l0", "l1", "l2", "l3", "console.log(hi)"]
      else []⟩

/-- Concrete top stack frame for the C7 scenario: line 4, with `srcW`. -/
def frameW : StackFrame := ⟨4, 0, "f", some srcW⟩

/-- C7 witness: the spec's scenario — path `/a/b.js`, frame line 4, source
line `"console.log(hi)"` — prints `"b.js:5 console.log(hi)"`. -/
theorem c7_witness :
    onStopped envW [frameW] (some 1)
        ⟨some 0, [(1, "main")], some 1, 1, [0], [0]⟩
      = .ok (⟨some 0, [(1, "main")], some 1, 1, [0], [0]⟩,
          [Effect.reqStackTrace 0 1 1,
            Effect.outputLine "b.js:5 console.log(hi)",
            Effect.startInput]) := by
  have h := (c7_stopped_prints envW [frameW]
      ⟨some 0, [(1, "main")], some 1, 1, [0], [0]⟩ 0 1 frameW srcW
      "console.log(hi)" rfl rfl rfl rfl (by decide)).1 "/a/b.js" rfl
  rw [h]
  have hstr : lastPathSegment "/a/b.js" ++ ":" ++ toString (frameW.line + 1)
      ++ " " ++ "console.log(hi)" = "b.js:5 console.log(hi)" := by decide
  rw [hstr]

/-- The ActiveThread invariant of the spec: the active thread is non-null
only while a session is open, and its id is then a key of the current
thread directory. -/
def ActiveThreadInv (s : DebuggerState) : Prop :=
  match s.activeThread with
  | none => True
  | some t => s.debugSession ≠ none ∧ (jsMapGet s.threads t).isSome = true

theorem onStopped_state_unchanged (env : SourceEnv) (frames : List StackFrame)
    (tid : Option Nat) (s s' : DebuggerState) (effs : List Effect)
    (h : onStopped env frames tid s = .ok (s', effs)) : s' = s := by
  cases tid with
  | none =>
      simp only [onStopped, Except.ok.injEq, Prod.mk.injEq] at h
      exact h.1.symm
  | some stopThread =>
      by_cases hact : s.activeThread = some stopThread
      · cases hds : s.debugSession with
        | none => simp [onStopped, hact, hds] at h
        | some sid =>
            cases hti : getTopOfStackSourceInfo env frames with
            | none =>
                simp only [onStopped, hact, hds, hti, if_pos,
                  Except.ok.injEq, Prod.mk.injEq] at h
                simp at h
                exact h.1.symm
            | some info =>
                simp only [onStopped, hact, hds, hti, if_pos,
                  Except.ok.injEq, Prod.mk.injEq] at h
                simp at h
                exact h.1.symm
      · simp only [onStopped, hact, if_neg, Except.ok.injEq,
          Prod.mk.injEq] at h
        simp [hact] at h
        exact h.1.symm

/-- C8: the ActiveThread invariant holds initially and is preserved by every
operation and event reaction of the orchestrator: opening a session,
refreshing the thread directory, closing, the four event handlers, and the
stepping operations. -/
theorem c8_invariant_preserved (s : DebuggerState) (hs : ActiveThreadInv s) :
    ActiveThreadInv initialState
    ∧ (∀ resp s' effs, openSession resp s = Except.ok (s', effs) → ActiveThreadInv s')
    ∧ (∀ resp s' effs, cacheThreads resp s = Except.ok (s', effs) → ActiveThreadInv s')
    ∧ ActiveThreadInv (closeSession s).1
    ∧ (∀ tid, ActiveThreadInv (onContinued tid s).1)
    ∧ (∀ env frames tid s' effs,
        onStopped env frames tid s = Except.ok (s', effs) → ActiveThreadInv s')
    ∧ (∀ c, ActiveThreadInv (onExitedDebugee c s).1)
    ∧ ActiveThreadInv (onTerminatedDebugee s).1
    ∧ (∀ s' effs, stepIn s = Except.ok (s', effs) → ActiveThreadInv s')
    ∧ (∀ s' effs, stepOver s = Except.ok (s', effs) → ActiveThreadInv s') := by
  have hclose : ActiveThreadInv (closeSession s).1 := by
    cases hds : s.debugSession with
    | none => simpa [closeSession, hds] using hs
    | some sid => simp [closeSession, hds, ActiveThreadInv]
  refine ⟨by simp [ActiveThreadInv, initialState], ?_, ?_, hclose, ?_, ?_, ?_, ?_, ?_, ?_⟩
  · intro resp s' effs h
    rw [openSession_eq] at h
    injection h with h1
    have hs' := congrArg Prod.fst h1
    subst hs'
    cases resp with
    | nil => simp [ActiveThreadInv]
    | cons thd rest =>
        have hmem : (jsMapGet ((thd.id, thd.name) ::
            (rest.map fun t => (t.id, t.name))) thd.id).isSome = true := by
          rw [jsMapGet_isSome_iff]
          simp
        simp [ActiveThreadInv, hmem]
  · intro resp s' effs h
    cases hds : s.debugSession with
    | none => simp [cacheThreads, hds] at h
    | some sid =>
        simp only [cacheThreads, hds, Except.ok.injEq, Prod.mk.injEq] at h
        obtain ⟨hs', heffs⟩ := h
        subst hs'
        cases resp with
        | nil => simp [ActiveThreadInv]
        | cons thd rest =>
            have hmem : (jsMapGet ((thd.id, thd.name) ::
                (rest.map fun t => (t.id, t.name))) thd.id).isSome = true := by
              rw [jsMapGet_isSome_iff]
              simp
            simp [ActiveThreadInv, hds, hmem]
  · intro tid
    have h1 : (onContinued tid s).1 = s := by
      by_cases h : s.activeThread = some tid <;> simp [onContinued, h]
    rw [h1]
    exact hs
  · intro env frames tid s' effs h
    rw [onStopped_state_unchanged env frames tid s s' effs h]
    exact hs
  · intro c
    exact hclose
  · cases hds : s.debugSession with
    | none => simpa [onTerminatedDebugee, hds] using hs
    | some sid =>
        have h1 : (onTerminatedDebugee s).1 = (closeSession s).1 := by
          simp [onTerminatedDebugee, hds]
        rw [h1]
        exact hclose
  · intro s' effs h
    cases hact : s.activeThread with
    | none => simp [stepIn, hact] at h
    | some t =>
        cases hds : s.debugSession with
        | none => simp [stepIn, hact, hds] at h
        | some sid =>
            simp only [stepIn, hact, hds, Except.ok.injEq, Prod.mk.injEq] at h
            rw [← h.1]
            exact hs
  · intro s' effs h
    cases hact : s.activeThread with
    | none => simp [stepOver, hact] at h
    | some t =>
        cases hds : s.debugSession with
        | none => simp [stepOver, hact, hds] at h
        | some sid =>
            simp only [stepOver, hact, hds, Except.ok.injEq, Prod.mk.injEq] at h
            rw [← h.1]
            exact hs

/-- C8 witness: the invariant at a concrete open state survives closing. -/
theorem c8_witness :
    ActiveThreadInv (closeSession ⟨some 0, [(1, "x")], some 1, 1, [0], [0]⟩).1 := by
  have h := c8_invariant_preserved ⟨some 0, [(1, "x")], some 1, 1, [0], [0]⟩
    (by exact ⟨by simp, rfl⟩)
  exact h.2.2.2.1

/-- C9 counterexample: calling `openSession` while a session (id 0) is
already open neither fails nor disconnects the prior session.  The result
is `ok` (no failure), the new state is Open with two alive sessions
(`[1, 0]`), the prior session's subscriptions are still registered, and no
`disconnect` was issued for session 0 — refuting both "exactly one
ProtocolSession instance alive when Open" and "does not leak the prior
session's subscriptions or handle". -/
theorem c9_counterexample :
    openSession [⟨2, "worker"⟩]
        ⟨some 0, [(1, "main")], some 1, 1, [0], [0]⟩
      = .ok
        (⟨some 1, [(2, "worker")], some 2, 2, [1, 0], [1, 0]⟩,
          [Effect.newSession 1, Effect.reqInitialize 1,
            Effect.subscribeEvents 1, Effect.reqLaunch 1,
            Effect.reqThreads 1])
    ∧ ([1, 0] : List Nat).length ≠ 1
    ∧ Effect.reqDisconnect 0 ∉
        [Effect.newSession 1, Effect.reqInitialize 1, Effect.subscribeEvents 1,
          Effect.reqLaunch 1, Effect.reqThreads 1] := by
  refine ⟨rfl, by decide, by decide⟩

/-- C9 amended: `openSession` invoked while a session is already open
silently reinitializes and leaks the prior session: the call succeeds with
the new session installed, the prior session remains alive (it is never
sent `disconnect`) and its subscriptions remain registered. -/
theorem c9_amended_open_leaks (resp : List Thread) (s s' : DebuggerState)
    (effs : List Effect) (sid : Nat)
    (_hopen : s.debugSession = some sid)
    (halive : sid ∈ s.aliveSessions)
    (hsub : sid ∈ s.subscriptions)
    (h : openSession resp s = .ok (s', effs)) :
    s'.debugSession = some s.nextSessionId
    ∧ sid ∈ s'.aliveSessions
    ∧ s.nextSessionId ∈ s'.aliveSessions
    ∧ sid ∈ s'.subscriptions
    ∧ Effect.reqDisconnect sid ∉ effs := by
  rw [openSession_eq] at h
  injection h with h1
  have hs' := congrArg Prod.fst h1
  have he := congrArg Prod.snd h1
  subst hs'
  subst he
  simp [halive, hsub]

/-- C9 amended witness: the concrete double-open run. -/
theorem c9_amended_witness :
    (0 : Nat) ∈
      (⟨some 1, [(2, "worker")], some 2, 2, [1, 0], [1, 0]⟩
        : DebuggerState).aliveSessions :=
  (c9_amended_open_leaks [⟨2, "worker"⟩]
    ⟨some 0, [(1, "main")], some 1, 1, [0], [0]⟩
    ⟨some 1, [(2, "worker")], some 2, 2, [1, 0], [1, 0]⟩
    [Effect.newSession 1, Effect.reqInitialize 1, Effect.subscribeEvents 1,
      Effect.reqLaunch 1, Effect.reqThreads 1]
    0 rfl (by decide) (by decide) rfl).2.1

/-- C10: the `exited` handler has no closed-session guard: delivered while
the session is already closed, it still prints
"Target exited with status c" (the inner `closeSession` is then a no-op and
the state is unchanged), whereas the guarded `terminated` handler is a
complete no-op in the same state. -/
theorem c10_exited_unguarded (c : Int) (s : DebuggerState)
    (h : s.debugSession = none) :
    onExitedDebugee c s
      = (s, [Effect.outputLine ("Target exited with status " ++ toString c)])
    ∧ onTerminatedDebugee s = (s, []) := by
  simp [onExitedDebugee, onTerminatedDebugee, closeSession, h]

/-- C10 witness: a late `exited` event with code 3 in the closed initial
state. -/
theorem c10_witness :
    onExitedDebugee 3 initialState
      = (initialState, [Effect.outputLine "Target exited with status 3"]) := by
  have h := (c10_exited_unguarded 3 initialState rfl).1
  rw [h]
  have hstr : "Target exited with status " ++ toString (3 : Int)
      = "Target exited with status 3" := by decide
  rw [hstr]
